import Mathlib

/-!
# Verification of the Brymen serial logger core

Shallow embedding of `Brymen_Logger_V1.0.py`: the line parser
`parse_all_measurements` and the reader loop of `SerialReaderThread`
(`run`, `set_logging`), together with proofs of the specified properties.

Strings are modelled as Lean `String` / `List Char`; Python floats built
from the device's decimal literals are modelled as exact rationals (`Rat`);
the regular-expression search
`\s*([+-]?\d+(?:\.\d+)?)\s*([\wΩ%]+)`
is modelled by an explicit leftmost-search backtracking matcher with the
same semantics as CPython `re.search` on this pattern.  The `\w`, `\d`,
`\s` classes are modelled at their ASCII cores (the device emits ASCII
apart from the explicitly listed `Ω`), which is what every input in the
specification exercises.
-/

/-- Python `\s` (ASCII core): the whitespace characters `str.strip` and
`str.split()` treat as separators. -/
def pyIsSpace (c : Char) : Bool :=
  c == ' ' || c == '\t' || c == '\n' || c == '\r' || c == '\x0b' || c == '\x0c'

/-- The character class `[\wΩ%]` of the unit regex: word characters
(ASCII letters, digits, underscore) plus `Ω` and `%`. -/
def isWordChar (c : Char) : Bool :=
  c.isAlphanum || c == '_' || c == 'Ω' || c == '%'

/-- Python `str.strip()`: remove leading and trailing whitespace. -/
def pyStrip (s : String) : String :=
  String.mk (((s.data.dropWhile pyIsSpace).reverse.dropWhile pyIsSpace).reverse)

/-- Worker for `pySplitWS`: accumulate the current token (reversed). -/
def splitWSGo : List Char → List Char → List String
  | [], acc => if acc.isEmpty then [] else [String.mk acc.reverse]
  | c :: t, acc =>
    if pyIsSpace c then
      if acc.isEmpty then splitWSGo t [] else String.mk acc.reverse :: splitWSGo t []
    else
      splitWSGo t (c :: acc)

/-- Python `str.split()` with no separator: split on whitespace runs,
dropping empty tokens (so a leading `strip()` is a no-op before it). -/
def pySplitWS (l : List Char) : List String :=
  splitWSGo l []

/-- Python `s.split(sep, 1)` combined with the `sep in s` test: `none`
when `sep` does not occur, otherwise the text before and after the first
occurrence of `sep`. -/
def splitOnFirst (sep : List Char) (l : List Char) : Option (List Char × List Char) :=
  if sep.isPrefixOf l then some ([], l.drop sep.length)
  else
    match l with
    | [] => none
    | c :: t => (splitOnFirst sep t).map (fun pq => (c :: pq.1, pq.2))

/-- Python `sep in s` substring containment. -/
def containsSub (sep : List Char) (l : List Char) : Bool :=
  (splitOnFirst sep l).isSome

/-- Value of a run of decimal digit characters. -/
def decDigitsVal (l : List Char) : Nat :=
  l.foldl (fun a c => 10 * a + (c.toNat - 48)) 0

/-- Split an optional leading `+`/`-` sign off a character list. -/
def signSplit (l : List Char) : List Char × List Char :=
  match l with
  | x :: t => if x == '+' || x == '-' then ([x], t) else ([], l)
  | [] => ([], [])

/-- Split a leading `.` followed by at least one digit (the optional
fraction part `(?:\.\d+)?` of the number regex): the fraction digits and
the text after them. -/
def fracSplit (l : List Char) : Option (List Char × List Char) :=
  match l with
  | x :: t =>
    if x == '.' then
      let fd := t.takeWhile Char.isDigit
      if fd.isEmpty then none else some (fd, t.dropWhile Char.isDigit)
    else none
  | [] => none

/-- Python `float(group1)` for the strings the number regex can produce:
`[+-]? digits [. digits]`, as an exact rational.  Any other shape is a
`ValueError`, modelled as `none`. -/
def pyFloatOfNumStr (s : String) : Option Rat :=
  let sgn := signSplit s.data
  let neg : Bool := sgn.1 == ['-']
  let ds := sgn.2.takeWhile Char.isDigit
  let rest := sgn.2.dropWhile Char.isDigit
  if ds.isEmpty then none
  else
    match fracSplit rest with
    | some fdA =>
      if fdA.2.isEmpty then
        let num : Int := (decDigitsVal ds * 10 ^ fdA.1.length + decDigitsVal fdA.1 : Nat)
        some (if neg then -mkRat num (10 ^ fdA.1.length) else mkRat num (10 ^ fdA.1.length))
      else none
    | none =>
      if rest.isEmpty then
        some (if neg then -mkRat (decDigitsVal ds : Nat) 1 else mkRat (decDigitsVal ds : Nat) 1)
      else none

/-- A successful match of `\s*([+-]?\d+(?:\.\d+)?)\s*([\wΩ%]+)`:
the two groups and the text after the end of the whole match. -/
structure NumUnitMatch where
  g1 : String
  g2 : String
  rest : List Char
deriving DecidableEq

/-- Match the tail `\s*([\wΩ%]+)` of the pattern after a candidate
group-1 text `ip`, at remainder `rem`.  (`\s*` maximal is equivalent to
greedy-with-backtracking here because a shorter munch leaves a whitespace
character at the head of the unit class, which cannot match.) -/
def matchTail (ip : List Char) (rem : List Char) : Option NumUnitMatch :=
  let r1 := rem.dropWhile pyIsSpace
  let unit := r1.takeWhile isWordChar
  if unit.isEmpty then none
  else some ⟨String.mk ip, String.mk unit, r1.drop unit.length⟩

/-- Backtrack over the number of fraction digits kept (greedy: `j` counts
down from all of `fd`), as CPython does for the inner `\d+` of
`(?:\.\d+)?` when the unit class fails to match. -/
def tryFrac (ip fd afterFd : List Char) : Nat → Option NumUnitMatch
  | 0 => none
  | j + 1 =>
    match matchTail (ip ++ '.' :: fd.take (j + 1)) (fd.drop (j + 1) ++ afterFd) with
    | some m => some m
    | none => tryFrac ip fd afterFd j

/-- Backtrack over the number of integer digits kept (greedy: `k` counts
down from the whole digit run), trying, for each choice, first the
fraction part (itself backtracking) and then no fraction — the CPython
backtracking order for `\d+(?:\.\d+)?` followed by `\s*[\wΩ%]+`. -/
def tryIntK (sgn d rest0 : List Char) : Nat → Option NumUnitMatch
  | 0 => none
  | k + 1 =>
    let ip := sgn ++ d.take (k + 1)
    let after := d.drop (k + 1) ++ rest0
    let withFrac :=
      match fracSplit after with
      | some fdA => tryFrac ip fdA.1 fdA.2 fdA.1.length
      | none => none
    match withFrac with
    | some m => some m
    | none =>
      match matchTail ip after with
      | some m => some m
      | none => tryIntK sgn d rest0 k

/-- Attempt the pattern anchored at the head of `l`: skip `\s*` (maximal,
equivalent here), take an optional sign, then a maximal digit run, and
enter the backtracking over the digit split. -/
def tryAnchor (l : List Char) : Option NumUnitMatch :=
  let l1 := l.dropWhile pyIsSpace
  let sgn := signSplit l1
  let d := sgn.2.takeWhile Char.isDigit
  let rest0 := sgn.2.dropWhile Char.isDigit
  if d.isEmpty then none else tryIntK sgn.1 d rest0 d.length

/-- CPython `re.search` of `\s*([+-]?\d+(?:\.\d+)?)\s*([\wΩ%]+)`:
leftmost anchored attempt that succeeds. -/
def searchNumUnit : List Char → Option NumUnitMatch
  | [] => none
  | c :: t =>
    match tryAnchor (c :: t) with
    | some m => some m
    | none => searchNumUnit t

/-- The dictionary returned by `parse_all_measurements`.  Each field is
`none` when the corresponding key is absent from the Python dict; the
inner `Option` of the value/unit fields is the Python value `None`. -/
structure ParsedReading where
  flags : Option (List String) := none
  main_value : Option (Option Rat) := none
  main_unit : Option (Option String) := none
  aux_value : Option (Option Rat) := none
  aux_unit : Option (Option String) := none
  low_battery : Option Bool := none
  raw : Option String := none
deriving DecidableEq

/-- The token `"MAIN:"`. -/
def mainToken : String := "MAIN:"

/-- The token `"AUX:"`. -/
def auxToken : String := "AUX:"

/-- The low-battery marker `"LOW BAT"`. -/
def lowBatToken : String := "LOW BAT"

/-- The numeric/unit extraction applied to a text segment: the first
regex match gives `float(group1)` (or Python `None` on conversion
failure) and `group2`; no match gives `None` for both.  Used for the
main measurement on the post-`MAIN:` text and repeated for the auxiliary
measurement. -/
def extractValUnit (l : List Char) : Option (Option Rat) × Option (Option String) :=
  match searchNumUnit l with
  | some m => (some (pyFloatOfNumStr m.g1), some (some m.g2))
  | none => (some none, some none)

/-- `parse_all_measurements(message)`: the line parser. -/
def parse_all_measurements (message : String) : ParsedReading :=
  match splitOnFirst mainToken.data message.data with
  | some prePost =>
    let mainVU := extractValUnit prePost.2
    let auxVU :=
      match splitOnFirst auxToken.data prePost.2 with
      | some auxPrePost => extractValUnit auxPrePost.2
      | none => (some none, some none)
    { flags := some (pySplitWS prePost.1)
      main_value := mainVU.1
      main_unit := mainVU.2
      aux_value := auxVU.1
      aux_unit := auxVU.2
      low_battery := some (containsSub lowBatToken.data message.data)
      raw := none }
  | none => { raw := some message }

/-- Digits of the fraction part of a decimal expansion by long division
(`rem/den`), with fuel; empty once the remainder is zero. -/
def fracDigitsGo (rem den : Nat) : Nat → List Char
  | 0 => []
  | fuel + 1 =>
    if rem == 0 then []
    else Char.ofNat (48 + rem * 10 / den) :: fracDigitsGo (rem * 10 % den) den fuel

/-- Python `str(float(...))` for the exact decimals the parser produces:
sign, integer part, and the terminating fraction digits (`.0` when
integral), as CPython prints floats of the modest magnitude a multimeter
emits (no scientific notation, shortest round-trip digits = the exact
terminating expansion). -/
def pyFloatStr (r : Rat) : String :=
  let sign := if r < 0 then "-" else ""
  let n := r.num.natAbs
  let d := r.den
  let fr := if n % d == 0 then "0" else String.mk (fracDigitsGo (n % d) d 32)
  sign ++ toString (n / d) ++ "." ++ fr

/-- The `run()` locals `flags_str, main_val, main_unit, aux_val,
aux_unit, battery_str`, which are assigned together by the structured
branch and persist across loop iterations. -/
structure CsvVals where
  flags_str : String
  main_val : Option Rat
  main_unit : String
  aux_val : Option Rat
  aux_unit : String
  battery_str : String
deriving DecidableEq

/-- The assignments of lines 124–129 of `run()` on a structured parse:
`" ".join(flags)`, the value objects, `unit or ""`, and the battery
string (`.get` defaults mirror Python `dict.get`). -/
def mkCsvVals (p : ParsedReading) : CsvVals :=
  { flags_str := String.intercalate " " (p.flags.getD [])
    main_val := p.main_value.getD none
    main_unit := (p.main_unit.getD none).getD ""
    aux_val := p.aux_value.getD none
    aux_unit := (p.aux_unit.getD none).getD ""
    battery_str := if p.low_battery.getD false then "LOW BAT" else "OK" }

/-- Python `f"{v}"` for an optional float: `None` prints as `"None"`. -/
def optValPyStr : Option Rat → String
  | none => "None"
  | some v => pyFloatStr v

/-- CSV cell for an optional float: empty when the value is `None`. -/
def csvCell : Option Rat → String
  | none => ""
  | some v => pyFloatStr v

/-- The human-readable summary string of the structured branch. -/
def structLogStr (v : CsvVals) : String :=
  "Flags: [" ++ v.flags_str ++ "] | MAIN: " ++ optValPyStr v.main_val ++ " " ++
    v.main_unit ++ " | AUX: " ++ optValPyStr v.aux_val ++ " " ++ v.aux_unit ++
    " | Battery: " ++ v.battery_str

/-- The CSV row written by `run()`: timestamp, quoted flags string, main
value (empty if `None`), quoted main unit, aux value, quoted aux unit,
battery status — comma-separated, newline-terminated. -/
def csvRow (ts : String) (v : CsvVals) : String :=
  ts ++ ",\"" ++ v.flags_str ++ "\"," ++ csvCell v.main_val ++ ",\"" ++
    v.main_unit ++ "\"," ++ csvCell v.aux_val ++ ",\"" ++ v.aux_unit ++ "\"," ++
    v.battery_str ++ "\n"

/-- The open append-mode CSV file: its path, the rows written through
this handle, and whether it has been closed. -/
structure CsvHandle where
  path : String
  rows : List String
  closed : Bool
deriving DecidableEq

/-- The mutable state of `SerialReaderThread` visible to the loop body:
the logging flag, the optional open file, the optional target path, and
the persisting `run()` locals (`none` while still unassigned). -/
structure TState where
  logging_enabled : Bool
  csv_file : Option CsvHandle
  csv_path : Option String
  lastVals : Option CsvVals
deriving DecidableEq

/-- Python truthiness of `self.csv_path` (`None` and `""` are falsy). -/
def csvPathTruthy : Option String → Bool
  | none => false
  | some s => !s.isEmpty

/-- Observable actions of one loop iteration. -/
inductive Effect where
  | logCb (s : String)
  | updateCb (v : Rat)
  | openCsv (path : String)
  | csvWrite (path : String) (row : String)
  | csvFlush (path : String)
  | consoleErr (s : String)
deriving DecidableEq

/-- What the serial port yields this iteration: nothing buffered, a
decoded line (decode with `errors="replace"` never fails), or an
exception raised by the serial calls. -/
inductive SerialEvent where
  | noData
  | data (decoded : String)
  | raiseErr (msg : String)
deriving DecidableEq

/-- Environment of one loop iteration: the serial event, whether the lazy
`open` would succeed (with the error text otherwise), and the wall-clock
timestamp `time.strftime("%Y-%m-%d %H:%M:%S")`. -/
structure IterInput where
  ev : SerialEvent
  openOk : Bool
  openErrMsg : String
  now : String
deriving DecidableEq

/-- The `UnboundLocalError` printed when the CSV block reads `flags_str`
before any structured line assigned it (message text abridged). -/
def nameErrMsg : String := "Error in serial reading: flags_str is not defined"

/-- Lines 143–158 of `run()`: the CSV block.  `vals` is the tuple of
locals the f-string reads — `none` means they are still unbound, which
raises (caught by the iteration's `except`) after the lazy open. -/
def csvBlockStep (st : TState) (vals : Option CsvVals) (inp : IterInput) :
    TState × List Effect :=
  if st.logging_enabled then
    let opened :=
      if st.csv_file.isNone && csvPathTruthy st.csv_path then
        if inp.openOk then
          ({ st with csv_file := some { path := st.csv_path.getD "", rows := [], closed := false } },
           [Effect.openCsv (st.csv_path.getD "")])
        else (st, [Effect.logCb ("CSV Open Error: " ++ inp.openErrMsg)])
      else (st, [])
    match opened.1.csv_file with
    | some h =>
      match vals with
      | none => (opened.1, opened.2 ++ [Effect.consoleErr nameErrMsg])
      | some v =>
        ({ opened.1 with csv_file := some { h with rows := h.rows ++ [csvRow inp.now v] } },
         opened.2 ++ [Effect.csvWrite h.path (csvRow inp.now v), Effect.csvFlush h.path])
    | none => (opened.1, opened.2)
  else (st, [])

/-- One iteration of the `while` body of `run()` (the `try` block; any
exception inside is caught and printed, never propagated). -/
def iterStep (st : TState) (inp : IterInput) : TState × List Effect :=
  match inp.ev with
  | SerialEvent.noData => (st, [])
  | SerialEvent.raiseErr m => (st, [Effect.consoleErr ("Error in serial reading: " ++ m)])
  | SerialEvent.data s =>
    let line := pyStrip s
    if line = "" then (st, [])
    else
      let p := parse_all_measurements line
      match p.raw with
      | some r =>
        let cb := csvBlockStep st st.lastVals inp
        (cb.1, [Effect.logCb ("RAW: " ++ line), Effect.logCb ("Raw Data: " ++ r)] ++ cb.2)
      | none =>
        let v := mkCsvVals p
        let updFx :=
          match p.main_value with
          | some (some x) => [Effect.updateCb x]
          | _ => []
        let cb := csvBlockStep { st with lastVals := some v } (some v) inp
        (cb.1,
         ([Effect.logCb ("RAW: " ++ line)] ++ updFx ++ [Effect.logCb (structLogStr v)]) ++ cb.2)

/-- `SerialReaderThread.set_logging(enabled, csv_path)`. -/
def set_logging (st : TState) (enabled : Bool) (path : Option String) : TState :=
  if enabled then { st with logging_enabled := true, csv_path := path }
  else
    match st.csv_file with
    | some _ => { st with logging_enabled := false, csv_file := none }
    | none => { st with logging_enabled := false }

/-- The epilogue of `run()`: close the CSV file if one is open (the
attribute keeps referencing the now-closed object). -/
def closeCsv (st : TState) : TState :=
  match st.csv_file with
  | some h => { st with csv_file := some { h with closed := true } }
  | none => st

/-- The `while not self._stop_event.is_set()` loop of `run()` over a
finite trace of iteration environments, each tagged with the value of the
stop flag observed at the top of that iteration.  Returns whether the
loop exited via the stop signal, the final thread state, and the effects
in order.  An exhausted trace means the loop is still running. -/
def runLoop (st : TState) : List (Bool × IterInput) → Bool × TState × List Effect
  | [] => (false, st, [])
  | q :: rest =>
    if q.1 then (true, closeCsv st, [])
    else
      let s1 := iterStep st q.2
      let r := runLoop s1.1 rest
      (r.1, r.2.1, s1.2 ++ r.2.2)

/-- Thread state after processing a trace prefix (stop flag unset). -/
def loopFold (st : TState) : List (Bool × IterInput) → TState
  | [] => st
  | q :: rest => loopFold (iterStep st q.2).1 rest

/-- Effects emitted while processing a trace prefix (stop flag unset). -/
def loopFx (st : TState) : List (Bool × IterInput) → List Effect
  | [] => []
  | q :: rest => (iterStep st q.2).2 ++ loopFx (iterStep st q.2).1 rest

/-- No CSV file handle referenced by the state is still open. -/
def noOpenCsv (st : TState) : Prop :=
  ∀ h, st.csv_file = some h → h.closed = true

/-- Number of `csvWrite` effects in a list. -/
def csvWriteCount (l : List Effect) : Nat :=
  l.countP fun e => match e with | Effect.csvWrite _ _ => true | _ => false

lemma extractValUnit_ne_none (l : List Char) :
    (extractValUnit l).1 ≠ none ∧ (extractValUnit l).2 ≠ none := by
  unfold extractValUnit
  cases searchNumUnit l <;> simp

/-- The auxiliary fields the parser computes from the post-`MAIN:` text:
apply `extractValUnit` after the first `AUX:` of `post` when present,
otherwise both are Python `None`. -/
def auxFieldsOf (post : List Char) : Option (Option Rat) × Option (Option String) :=
  match splitOnFirst auxToken.data post with
  | some auxPrePost => extractValUnit auxPrePost.2
  | none => (some none, some none)

lemma parse_structured_eq (msg : String) (pp : List Char × List Char)
    (h : splitOnFirst mainToken.data msg.data = some pp) :
    parse_all_measurements msg =
      { flags := some (pySplitWS pp.1)
        main_value := (extractValUnit pp.2).1
        main_unit := (extractValUnit pp.2).2
        aux_value := (auxFieldsOf pp.2).1
        aux_unit := (auxFieldsOf pp.2).2
        low_battery := some (containsSub lowBatToken.data msg.data)
        raw := none } := by
  simp only [parse_all_measurements, h, auxFieldsOf]

lemma auxFieldsOf_ne_none (l : List Char) :
    (auxFieldsOf l).1 ≠ none ∧ (auxFieldsOf l).2 ≠ none := by
  unfold auxFieldsOf
  cases splitOnFirst auxToken.data l with
  | none => simp
  | some aa => exact extractValUnit_ne_none aa.2

/-- C4: for every input line, the `ParsedReading` returned by the parser
is either structured — `flags` and `main_value` keys present (with all
other structured keys) and `raw` absent — or raw — `raw` present and all
other fields absent — and never both. -/
theorem parsed_reading_structured_or_raw (msg : String) :
    ((parse_all_measurements msg).flags ≠ none ∧
     (parse_all_measurements msg).main_value ≠ none ∧
     (parse_all_measurements msg).main_unit ≠ none ∧
     (parse_all_measurements msg).aux_value ≠ none ∧
     (parse_all_measurements msg).aux_unit ≠ none ∧
     (parse_all_measurements msg).low_battery ≠ none ∧
     (parse_all_measurements msg).raw = none) ∨
    ((parse_all_measurements msg).raw ≠ none ∧
     (parse_all_measurements msg).flags = none ∧
     (parse_all_measurements msg).main_value = none ∧
     (parse_all_measurements msg).main_unit = none ∧
     (parse_all_measurements msg).aux_value = none ∧
     (parse_all_measurements msg).aux_unit = none ∧
     (parse_all_measurements msg).low_battery = none) := by
  cases h : splitOnFirst mainToken.data msg.data with
  | none =>
    right
    simp [parse_all_measurements, h]
  | some pp =>
    left
    rw [parse_structured_eq msg pp h]
    exact ⟨by simp, (extractValUnit_ne_none pp.2).1, (extractValUnit_ne_none pp.2).2,
      (auxFieldsOf_ne_none pp.2).1, (auxFieldsOf_ne_none pp.2).2, by simp, rfl⟩

/-- C6: parsing `"AUTO MAIN: -3.2 mV AUX: 100 Hz LOW BAT"` yields
flags `["AUTO"]`, main value `-3.2`, main unit `"mV"`, aux value `100`,
aux unit `"Hz"`, and low battery `true`. -/
theorem parse_example_full_line :
    parse_all_measurements "AUTO MAIN: -3.2 mV AUX: 100 Hz LOW BAT" =
      { flags := some ["AUTO"]
        main_value := some (some (-3.2 : Rat))
        main_unit := some (some "mV")
        aux_value := some (some (100 : Rat))
        aux_unit := some (some "Hz")
        low_battery := some true
        raw := none } := by
  have h32 : (-3.2 : Rat) = mkRat (-16) 5 := by
    rw [Rat.mkRat_eq_div]; norm_num
  have h100 : (100 : Rat) = mkRat 100 1 := by decide
  rw [h32, h100]
  decide

/-- C7: a line without the token `MAIN:` parses to a raw reading holding
the original text unchanged, with every structured field absent. -/
theorem parse_no_main_is_raw (msg : String)
    (h : containsSub mainToken.data msg.data = false) :
    parse_all_measurements msg = { raw := some msg } := by
  cases hs : splitOnFirst mainToken.data msg.data with
  | none => simp [parse_all_measurements, hs]
  | some pp => simp [containsSub, hs] at h

/-- C7 witness: `parse("garbage text")` is the raw reading
`raw="garbage text"`. -/
theorem parse_no_main_is_raw_witness :
    containsSub mainToken.data "garbage text".data = false ∧
      parse_all_measurements "garbage text" = { raw := some "garbage text" } :=
  ⟨by decide, parse_no_main_is_raw "garbage text" (by decide)⟩

/-- C8: the parser is a pure deterministic function of the line: parsing
the same line any number of times yields the identical `ParsedReading`
every time, with no hidden state affecting the outcome. -/
theorem parse_pure_deterministic (m : String) (n : Nat) :
    (List.replicate n m).map parse_all_measurements =
      List.replicate n (parse_all_measurements m) := by
  simp

/-- Modelled from the spec: the auxiliary fields the specification
prescribes — the numeric/unit extraction is repeated only when the text
remaining AFTER the main value/unit match contains `AUX:`, on the text
following that token; otherwise both are recorded missing.  (When there
is no main match the spec leaves the remainder implicit; the whole
post-`MAIN:` text is taken as the remainder then.) -/
def specAuxFields (post : List Char) : Option (Option Rat) × Option (Option String) :=
  let remainder :=
    match searchNumUnit post with
    | some m => m.rest
    | none => post
  match splitOnFirst auxToken.data remainder with
  | some auxPrePost => extractValUnit auxPrePost.2
  | none => (some none, some none)

/-- C2 as claimed: for a line containing `MAIN:`, the parser's aux fields
agree with the spec's after-the-main-match rule. -/
def C2AuxAfterMatch (msg : String) : Prop :=
  ∀ pp : List Char × List Char, splitOnFirst mainToken.data msg.data = some pp →
    ((parse_all_measurements msg).aux_value, (parse_all_measurements msg).aux_unit) =
      specAuxFields pp.2

/-- C2 counterexample: on `"MAIN: AUX: 5 Hz"` the main match consumes
`" 5 Hz"` to its end, so no `AUX:` remains after it and the spec rule
records the aux fields missing — but the code tests `AUX:` against the
whole post-`MAIN:` text and reports aux value `5`, unit `"Hz"`. -/
theorem aux_after_match_cex : ¬ C2AuxAfterMatch "MAIN: AUX: 5 Hz" := by
  intro h
  have h2 := h ([], " AUX: 5 Hz".data) (by decide)
  exact absurd h2 (by decide)

/-- C2 amended: the auxiliary extraction is applied only when the whole
text after `MAIN:` (including the part consumed by the main value/unit
match) contains `AUX:`, in which case the same numeric/unit extraction is
repeated on the text following the first such `AUX:`; otherwise aux
value/unit are recorded as missing. -/
theorem aux_from_post_main (msg : String) (pp : List Char × List Char)
    (h : splitOnFirst mainToken.data msg.data = some pp) :
    ((splitOnFirst auxToken.data pp.2 = none →
        (parse_all_measurements msg).aux_value = some none ∧
        (parse_all_measurements msg).aux_unit = some none) ∧
     ∀ aa : List Char × List Char, splitOnFirst auxToken.data pp.2 = some aa →
        ((parse_all_measurements msg).aux_value, (parse_all_measurements msg).aux_unit) =
          extractValUnit aa.2) := by
  rw [parse_structured_eq msg pp h]
  constructor
  · intro haux
    simp [auxFieldsOf, haux]
  · intro aa haux
    simp [auxFieldsOf, haux]

/-- C2 amended, witness: on `"MAIN: AUX: 5 Hz"` the text after `MAIN:`
contains `AUX:` and the parser's aux fields are the extraction of the
text after the first `AUX:`. -/
theorem aux_from_post_main_witness :
    ((parse_all_measurements "MAIN: AUX: 5 Hz").aux_value,
     (parse_all_measurements "MAIN: AUX: 5 Hz").aux_unit) = extractValUnit (" 5 Hz".data) :=
  (aux_from_post_main "MAIN: AUX: 5 Hz" ([], " AUX: 5 Hz".data) (by decide)).2
    ([' '], " 5 Hz".data) (by decide)

/-- The decimal digit characters. -/
def decDigitChars : List Char := ['0', '1', '2', '3', '4', '5', '6', '7', '8', '9']

lemma dec_digit_facts (x : Char) (h : x ∈ decDigitChars) :
    Char.isDigit x = true ∧ pyIsSpace x = false ∧ isWordChar x = true ∧
      (x == '.') = false ∧ (x == '+') = false ∧ (x == '-') = false := by
  simp only [decDigitChars, List.mem_cons, List.not_mem_nil, or_false] at h
  rcases h with rfl | rfl | rfl | rfl | rfl | rfl | rfl | rfl | rfl | rfl <;> decide

lemma matchTail_nil (ip : List Char) : matchTail ip [] = none := rfl

lemma matchTail_single (ip : List Char) (c : Char)
    (hsp : pyIsSpace c = false) (hw : isWordChar c = true) :
    matchTail ip [c] = some ⟨String.mk ip, String.mk [c], []⟩ := by
  simp [matchTail, List.dropWhile, List.takeWhile, hsp, hw]

lemma tryAnchor_digit_run (ds : List Char) (c : Char)
    (hds : ∀ x ∈ ds, x ∈ decDigitChars) (hc : c ∈ decDigitChars) (hne : ds ≠ []) :
    tryAnchor (' ' :: (ds ++ [c])) = some ⟨String.mk ds, String.mk [c], []⟩ := by
  obtain ⟨d0, ds1, rfl⟩ : ∃ d0 ds1, ds = d0 :: ds1 := by
    cases ds with
    | nil => exact absurd rfl hne
    | cons a b => exact ⟨a, b, rfl⟩
  have hd0 := dec_digit_facts d0 (hds d0 (by simp))
  have hcf := dec_digit_facts c hc
  have hall : ∀ x ∈ d0 :: (ds1 ++ [c]), Char.isDigit x = true := by
    intro x hx
    rcases List.mem_cons.mp hx with hx | hx
    · subst hx
      exact hd0.1
    rcases List.mem_append.mp hx with hx | hx
    · exact (dec_digit_facts x (hds x (List.mem_cons_of_mem d0 hx))).1
    · simp only [List.mem_singleton] at hx
      subst hx
      exact hcf.1
  have hsp : pyIsSpace ' ' = true := rfl
  have h1 : List.dropWhile pyIsSpace (' ' :: (d0 :: (ds1 ++ [c]))) = d0 :: (ds1 ++ [c]) := by
    rw [List.dropWhile_cons_of_pos hsp, List.dropWhile_cons_of_neg (by simp [hd0.2.1])]
  have h2 : signSplit (d0 :: (ds1 ++ [c])) = ([], d0 :: (ds1 ++ [c])) := by
    simp [signSplit, hd0.2.2.2.2.1, hd0.2.2.2.2.2]
  have h3 : List.takeWhile Char.isDigit (d0 :: (ds1 ++ [c])) = d0 :: (ds1 ++ [c]) :=
    List.takeWhile_eq_self_iff.mpr hall
  have h4 : List.dropWhile Char.isDigit (d0 :: (ds1 ++ [c])) = [] :=
    List.dropWhile_eq_nil_iff.mpr hall
  have hlen1 : (ds1 ++ [c]).length = ds1.length + 1 := by simp
  have htake1 : List.take (ds1.length + 1 + 1) (d0 :: (ds1 ++ [c])) = d0 :: (ds1 ++ [c]) := by
    rw [List.take_succ_cons, ← hlen1, List.take_length]
  have hdrop1 : List.drop (ds1.length + 1 + 1) (d0 :: (ds1 ++ [c])) = [] := by
    rw [List.drop_succ_cons, ← hlen1, List.drop_length]
  have htake2 : List.take (ds1.length + 1) (d0 :: (ds1 ++ [c])) = d0 :: ds1 := by
    rw [List.take_succ_cons]
    congr 1
    exact List.take_left ds1 [c]
  have hdrop2 : List.drop (ds1.length + 1) (d0 :: (ds1 ++ [c])) = [c] := by
    rw [List.drop_succ_cons]
    exact List.drop_left ds1 [c]
  have hfrac : fracSplit [c] = none := by
    simp [fracSplit, hcf.2.2.2.1]
  have hmt1 : matchTail (d0 :: (ds1 ++ [c])) [] = none := matchTail_nil _
  have hmt2 : matchTail (d0 :: ds1) [c] = some ⟨String.mk (d0 :: ds1), String.mk [c], []⟩ :=
    matchTail_single _ _ hcf.2.1 hcf.2.2.1
  have hlen : (d0 :: (ds1 ++ [c])).length = ds1.length + 1 + 1 := by simp
  unfold tryAnchor
  simp only [List.cons_append, h1, h2, h3, h4, hlen, List.isEmpty_cons, Bool.false_eq_true,
    if_false]
  unfold tryIntK
  simp only [List.nil_append, htake1, hdrop1, List.append_nil, hmt1, hfrac]
  unfold tryIntK
  simp only [List.nil_append, htake2, hdrop2, List.append_nil, hmt2, hfrac]
  rfl

lemma pyFloat_digit_run (ds : List Char)
    (hds : ∀ x ∈ ds, x ∈ decDigitChars) (hne : ds ≠ []) :
    pyFloatOfNumStr (String.mk ds) = some (mkRat (decDigitsVal ds : Nat) 1) := by
  obtain ⟨d0, ds1, rfl⟩ : ∃ d0 ds1, ds = d0 :: ds1 := by
    cases ds with
    | nil => exact absurd rfl hne
    | cons a b => exact ⟨a, b, rfl⟩
  have hd0 := dec_digit_facts d0 (hds d0 (by simp))
  have hall : ∀ x ∈ d0 :: ds1, Char.isDigit x = true := fun x hx =>
    (dec_digit_facts x (hds x hx)).1
  have hsg : signSplit (String.mk (d0 :: ds1)).data = ([], d0 :: ds1) := by
    simp [signSplit, hd0.2.2.2.2.1, hd0.2.2.2.2.2]
  unfold pyFloatOfNumStr
  simp only [hsg, List.takeWhile_eq_self_iff.mpr hall, List.dropWhile_eq_nil_iff.mpr hall]
  rfl

/-- C9: a line `MAIN:` followed by a multi-digit integer with nothing
after it still reports both a main value and a main unit, via regex
backtracking: all digits but the last become the value and the final
digit becomes the unit (e.g. `parse("MAIN: 123")` gives `12.0` and
`"3"`), rather than the unit being reported missing. -/
theorem digit_run_backtracking (ds : List Char) (c : Char)
    (hds : ∀ x ∈ ds, x ∈ decDigitChars) (hc : c ∈ decDigitChars) (hne : ds ≠ []) :
    (parse_all_measurements ("MAIN: " ++ String.mk (ds ++ [c]))).main_value =
      some (some (mkRat (decDigitsVal ds : Nat) 1)) ∧
    (parse_all_measurements ("MAIN: " ++ String.mk (ds ++ [c]))).main_unit =
      some (some (String.mk [c])) := by
  have hsplit : splitOnFirst mainToken.data ("MAIN: " ++ String.mk (ds ++ [c])).data =
      some ([], ' ' :: (ds ++ [c])) := rfl
  rw [parse_structured_eq _ _ hsplit]
  have hsearch : searchNumUnit (' ' :: (ds ++ [c])) = some ⟨String.mk ds, String.mk [c], []⟩ := by
    unfold searchNumUnit
    rw [tryAnchor_digit_run ds c hds hc hne]
  simp [extractValUnit, hsearch, pyFloat_digit_run ds hds hne]

/-- C9 witness: `parse("MAIN: 123")` yields main value `12` and main
unit `"3"`. -/
theorem digit_run_backtracking_witness :
    (parse_all_measurements ("MAIN: " ++ String.mk (['1', '2'] ++ ['3']))).main_value =
      some (some (mkRat (decDigitsVal ['1', '2'] : Nat) 1)) ∧
    (parse_all_measurements ("MAIN: " ++ String.mk (['1', '2'] ++ ['3']))).main_unit =
      some (some (String.mk ['3'])) :=
  digit_run_backtracking ['1', '2'] '3' (by decide) (by decide) (by decide)

lemma csvBlockStep_disabled (st : TState) (vals : Option CsvVals) (inp : IterInput)
    (hlog : st.logging_enabled = false) :
    csvBlockStep st vals inp = (st, []) := by
  simp [csvBlockStep, hlog]

lemma csvBlockStep_open_none (st : TState) (inp : IterInput) (h : CsvHandle)
    (hlog : st.logging_enabled = true) (hfile : st.csv_file = some h) :
    csvBlockStep st none inp = (st, [Effect.consoleErr nameErrMsg]) := by
  unfold csvBlockStep
  simp [hlog, hfile]

lemma csvBlockStep_open_some (st : TState) (v : CsvVals) (inp : IterInput) (h : CsvHandle)
    (hlog : st.logging_enabled = true) (hfile : st.csv_file = some h) :
    csvBlockStep st (some v) inp =
      ({ st with csv_file := some { h with rows := h.rows ++ [csvRow inp.now v] } },
       [Effect.csvWrite h.path (csvRow inp.now v), Effect.csvFlush h.path]) := by
  unfold csvBlockStep
  simp [hlog, hfile]

lemma csvBlockStep_openfail (st : TState) (vals : Option CsvVals) (inp : IterInput)
    (hlog : st.logging_enabled = true) (hfile : st.csv_file = none)
    (htr : csvPathTruthy st.csv_path = true) (hok : inp.openOk = false) :
    csvBlockStep st vals inp = (st, [Effect.logCb ("CSV Open Error: " ++ inp.openErrMsg)]) := by
  unfold csvBlockStep
  simp [hlog, hfile, htr, hok]

lemma csvBlockStep_lazy_open (st : TState) (v : CsvVals) (inp : IterInput)
    (hlog : st.logging_enabled = true) (hfile : st.csv_file = none)
    (htr : csvPathTruthy st.csv_path = true) (hok : inp.openOk = true) :
    csvBlockStep st (some v) inp =
      ({ st with csv_file := some (CsvHandle.mk (st.csv_path.getD "") [csvRow inp.now v] false) },
       [Effect.openCsv (st.csv_path.getD ""),
        Effect.csvWrite (st.csv_path.getD "") (csvRow inp.now v),
        Effect.csvFlush (st.csv_path.getD "")]) := by
  unfold csvBlockStep
  simp [hlog, hfile, htr, hok]

lemma iterStep_data_raw (st : TState) (inp : IterInput) (s r : String)
    (hev : inp.ev = SerialEvent.data s) (hne : ¬ pyStrip s = "")
    (hraw : (parse_all_measurements (pyStrip s)).raw = some r) :
    iterStep st inp =
      ((csvBlockStep st st.lastVals inp).1,
       [Effect.logCb ("RAW: " ++ pyStrip s), Effect.logCb ("Raw Data: " ++ r)] ++
         (csvBlockStep st st.lastVals inp).2) := by
  simp only [iterStep, hev, if_neg hne, hraw]

lemma iterStep_data_struct (st : TState) (inp : IterInput) (s : String)
    (hev : inp.ev = SerialEvent.data s) (hne : ¬ pyStrip s = "")
    (hraw : (parse_all_measurements (pyStrip s)).raw = none) :
    iterStep st inp =
      ((csvBlockStep { st with lastVals := some (mkCsvVals (parse_all_measurements (pyStrip s))) }
          (some (mkCsvVals (parse_all_measurements (pyStrip s)))) inp).1,
       ([Effect.logCb ("RAW: " ++ pyStrip s)] ++
          (match (parse_all_measurements (pyStrip s)).main_value with
           | some (some x) => [Effect.updateCb x]
           | _ => []) ++
          [Effect.logCb (structLogStr (mkCsvVals (parse_all_measurements (pyStrip s))))]) ++
         (csvBlockStep { st with lastVals := some (mkCsvVals (parse_all_measurements (pyStrip s))) }
            (some (mkCsvVals (parse_all_measurements (pyStrip s)))) inp).2) := by
  simp only [iterStep, hev, if_neg hne, hraw]

lemma csvWriteCount_append (a b : List Effect) :
    csvWriteCount (a ++ b) = csvWriteCount a + csvWriteCount b := by
  simp [csvWriteCount, List.countP_append]

lemma csvWriteCount_updFx (mv : Option (Option Rat)) :
    csvWriteCount (match mv with | some (some x) => [Effect.updateCb x] | _ => []) = 0 := by
  rcases mv with _ | mv
  · rfl
  rcases mv with _ | x <;> rfl

/-- C1 as claimed (necessary consequence): with logging enabled, every
non-empty decoded line makes the iteration append exactly one CSV row. -/
def CsvRowPerLine (st : TState) (inp : IterInput) : Prop :=
  st.logging_enabled = true → ∀ s, inp.ev = SerialEvent.data s → pyStrip s ≠ "" →
    csvWriteCount (iterStep st inp).2 = 1

/-- A state with logging enabled and an open CSV file, but no structured
line processed yet. -/
def c1State : TState :=
  { logging_enabled := true
    csv_file := some (CsvHandle.mk "log.csv" [] false)
    csv_path := some "log.csv"
    lastVals := none }

/-- A non-empty decoded line that does not contain `MAIN:`. -/
def c1Input : IterInput :=
  { ev := SerialEvent.data "garbage", openOk := true, openErrMsg := ""
    now := "2026-01-01 12:00:00" }

/-- C1 counterexample: with logging enabled and the file open, the raw
line `"garbage"` produces no CSV row at all — the CSV block reads the
still-unassigned `flags_str` locals, raising an `UnboundLocalError` that
the loop catches — so the claimed "exactly one row per non-empty line"
fails.  (After a structured line the same raw line would instead write a
stale row repeating the previous line's fields.) -/
theorem csv_row_per_line_cex : ¬ CsvRowPerLine c1State c1Input := by
  intro h
  have h2 := h rfl "garbage" rfl (by decide)
  exact absurd h2 (by decide)

/-- C1 amended: with logging enabled and an open handle — or a truthy
path whose lazy open succeeds — every non-empty decoded line that parses
as structured (contains `MAIN:`) appends exactly one CSV row holding that
line's data (timestamp, quoted flags string, main value, quoted main
unit, aux value, quoted aux unit, battery status, comma-separated,
newline-terminated, missing values as an empty cell), flushed immediately
after the write; raw lines are not reliably logged (no row, or a stale
row of the previous structured line's fields). -/
theorem csv_row_per_structured_line (st : TState) (inp : IterInput) (s : String) (h0 : CsvHandle)
    (hlog : st.logging_enabled = true)
    (hev : inp.ev = SerialEvent.data s)
    (hne : pyStrip s ≠ "")
    (hstruct : (parse_all_measurements (pyStrip s)).raw = none)
    (hfile : st.csv_file = some h0 ∨
      (st.csv_file = none ∧ csvPathTruthy st.csv_path = true ∧ inp.openOk = true ∧
       h0 = CsvHandle.mk (st.csv_path.getD "") [] false)) :
    csvWriteCount (iterStep st inp).2 = 1 ∧
    (∃ pre, (iterStep st inp).2 =
      pre ++ [Effect.csvWrite h0.path
                (csvRow inp.now (mkCsvVals (parse_all_measurements (pyStrip s)))),
              Effect.csvFlush h0.path]) ∧
    (iterStep st inp).1.csv_file =
      some { h0 with
        rows := h0.rows ++ [csvRow inp.now (mkCsvVals (parse_all_measurements (pyStrip s)))] } := by
  rw [iterStep_data_struct st inp s hev hne hstruct]
  set v := mkCsvVals (parse_all_measurements (pyStrip s)) with hv
  set st1 : TState := { st with lastVals := some v } with hst1
  have hlog1 : st1.logging_enabled = true := hlog
  rcases hfile with hopen | ⟨hnone, htr, hok, h0eq⟩
  · have hopen1 : st1.csv_file = some h0 := hopen
    rw [csvBlockStep_open_some st1 v inp h0 hlog1 hopen1]
    refine ⟨?_, ⟨_, rfl⟩, rfl⟩
    rw [csvWriteCount_append, csvWriteCount_append, csvWriteCount_append,
      csvWriteCount_updFx]
    rfl
  · have hnone1 : st1.csv_file = none := hnone
    have htr1 : csvPathTruthy st1.csv_path = true := htr
    rw [csvBlockStep_lazy_open st1 v inp hlog1 hnone1 htr1 hok]
    subst h0eq
    refine ⟨?_, ?_, by simp⟩
    · rw [csvWriteCount_append, csvWriteCount_append, csvWriteCount_append,
        csvWriteCount_updFx]
      rfl
    · refine ⟨([Effect.logCb ("RAW: " ++ pyStrip s)] ++
        (match (parse_all_measurements (pyStrip s)).main_value with
         | some (some x) => [Effect.updateCb x]
         | _ => []) ++
        [Effect.logCb (structLogStr v)]) ++
        [Effect.openCsv (st1.csv_path.getD "")], ?_⟩
      simp

/-- A state with logging enabled and an open CSV file for the C1 witness. -/
def c1WState : TState :=
  { logging_enabled := true
    csv_file := some (CsvHandle.mk "data.csv" [] false)
    csv_path := some "data.csv"
    lastVals := none }

/-- A structured line arriving for the C1 witness. -/
def c1WInput : IterInput :=
  { ev := SerialEvent.data "MAIN: 12.5 V DC", openOk := true, openErrMsg := ""
    now := "2026-02-03 10:30:00" }

/-- C1 amended, witness at a structured line with the file open. -/
theorem csv_row_per_structured_line_witness :
    csvWriteCount (iterStep c1WState c1WInput).2 = 1 ∧
    (∃ pre, (iterStep c1WState c1WInput).2 =
      pre ++ [Effect.csvWrite (CsvHandle.mk "data.csv" [] false).path
                (csvRow c1WInput.now
                  (mkCsvVals (parse_all_measurements (pyStrip "MAIN: 12.5 V DC")))),
              Effect.csvFlush (CsvHandle.mk "data.csv" [] false).path]) ∧
    (iterStep c1WState c1WInput).1.csv_file =
      some { CsvHandle.mk "data.csv" [] false with
        rows := (CsvHandle.mk "data.csv" [] false).rows ++
          [csvRow c1WInput.now (mkCsvVals (parse_all_measurements (pyStrip "MAIN: 12.5 V DC")))] } :=
  csv_row_per_structured_line c1WState c1WInput "MAIN: 12.5 V DC" (CsvHandle.mk "data.csv" [] false)
    rfl rfl (by decide) (by decide) (Or.inl rfl)

/-- C3: when the lazy open of the CSV log file fails, the failure is
reported through the logging sink as text (`CSV Open Error: ...`), no CSV
row is written in that iteration, the file stays unopened, and the loop
goes on processing the rest of the trace exactly as if the iteration had
succeeded. -/
theorem csv_open_failure_handled (st : TState) (inp : IterInput) (s : String)
    (hlog : st.logging_enabled = true) (hfile : st.csv_file = none)
    (htr : csvPathTruthy st.csv_path = true)
    (hev : inp.ev = SerialEvent.data s) (hok : inp.openOk = false)
    (hne : pyStrip s ≠ "") :
    Effect.logCb ("CSV Open Error: " ++ inp.openErrMsg) ∈ (iterStep st inp).2 ∧
    csvWriteCount (iterStep st inp).2 = 0 ∧
    (iterStep st inp).1.csv_file = none ∧
    ∀ rest, runLoop st ((false, inp) :: rest) =
      ((runLoop (iterStep st inp).1 rest).1,
       (runLoop (iterStep st inp).1 rest).2.1,
       (iterStep st inp).2 ++ (runLoop (iterStep st inp).1 rest).2.2) := by
  have hcont : ∀ rest, runLoop st ((false, inp) :: rest) =
      ((runLoop (iterStep st inp).1 rest).1,
       (runLoop (iterStep st inp).1 rest).2.1,
       (iterStep st inp).2 ++ (runLoop (iterStep st inp).1 rest).2.2) := by
    intro rest
    rfl
  rcases hraw : (parse_all_measurements (pyStrip s)).raw with _ | r
  · rw [iterStep_data_struct st inp s hev hne hraw]
    set v := mkCsvVals (parse_all_measurements (pyStrip s)) with hv
    set st1 : TState := { st with lastVals := some v } with hst1
    have hlog1 : st1.logging_enabled = true := hlog
    have hfile1 : st1.csv_file = none := hfile
    have htr1 : csvPathTruthy st1.csv_path = true := htr
    rw [csvBlockStep_openfail st1 (some v) inp hlog1 hfile1 htr1 hok]
    refine ⟨by simp, ?_, hfile1, ?_⟩
    · rw [csvWriteCount_append, csvWriteCount_append, csvWriteCount_append,
        csvWriteCount_updFx]
      rfl
    · intro rest
      have := hcont rest
      rw [iterStep_data_struct st inp s hev hne hraw] at this
      rw [csvBlockStep_openfail st1 (some v) inp hlog1 hfile1 htr1 hok] at this
      exact this
  · rw [iterStep_data_raw st inp s r hev hne hraw]
    rw [csvBlockStep_openfail st st.lastVals inp hlog hfile htr hok]
    refine ⟨by simp, by rw [csvWriteCount_append]; rfl, hfile, ?_⟩
    intro rest
    have := hcont rest
    rw [iterStep_data_raw st inp s r hev hne hraw] at this
    rw [csvBlockStep_openfail st st.lastVals inp hlog hfile htr hok] at this
    exact this

/-- A state with logging enabled, a target path, and no open file. -/
def c3State : TState :=
  { logging_enabled := true, csv_file := none, csv_path := some "out.csv", lastVals := none }

/-- A structured line arriving while the open would fail. -/
def c3Input : IterInput :=
  { ev := SerialEvent.data "MAIN: 7 V", openOk := false
    openErrMsg := "Permission denied", now := "2026-02-03 10:31:00" }

/-- C3 witness: at a concrete failing open, the error text is logged, no
row is written, the file stays unopened, and the loop continues (shown at
the empty remaining trace). -/
theorem csv_open_failure_handled_witness :
    Effect.logCb ("CSV Open Error: " ++ c3Input.openErrMsg) ∈ (iterStep c3State c3Input).2 ∧
    csvWriteCount (iterStep c3State c3Input).2 = 0 ∧
    (iterStep c3State c3Input).1.csv_file = none ∧
    runLoop c3State [(false, c3Input)] =
      ((runLoop (iterStep c3State c3Input).1 []).1,
       (runLoop (iterStep c3State c3Input).1 []).2.1,
       (iterStep c3State c3Input).2 ++ (runLoop (iterStep c3State c3Input).1 []).2.2) := by
  have h := csv_open_failure_handled c3State c3Input "MAIN: 7 V" rfl rfl (by decide) rfl rfl
    (by decide)
  exact ⟨h.1, h.2.1, h.2.2.1, h.2.2.2 []⟩

/-- An effect is compatible with all file traffic going to the handle
opened at `p`: CSV writes and flushes name `p`, no new file is opened,
and non-file effects are unconstrained. -/
def effWritesTo (e : Effect) (p : String) : Prop :=
  match e with
  | Effect.csvWrite q _ => q = p
  | Effect.csvFlush q => q = p
  | Effect.openCsv _ => False
  | _ => True

lemma effWritesTo_updFx (mv : Option (Option Rat)) (p : String) :
    ∀ e ∈ (match mv with | some (some x) => [Effect.updateCb x] | _ => []),
      effWritesTo e p := by
  rcases mv with _ | mv
  · simp
  rcases mv with _ | x
  · simp
  · intro e he
    simp only [List.mem_singleton] at he
    subst he
    trivial

lemma iterStep_keeps_handle (st : TState) (inp : IterInput) (h : CsvHandle)
    (hfile : st.csv_file = some h) :
    (∀ e ∈ (iterStep st inp).2, effWritesTo e h.path) ∧
    ((iterStep st inp).1.csv_file).map CsvHandle.path = some h.path := by
  have hblock : ∀ (st1 : TState) (vals : Option CsvVals), st1.csv_file = some h →
      st1.csv_path = st.csv_path →
      (∀ e ∈ (csvBlockStep st1 vals inp).2, effWritesTo e h.path) ∧
      ((csvBlockStep st1 vals inp).1.csv_file).map CsvHandle.path = some h.path := by
    intro st1 vals hfile1 _
    cases hlog : st1.logging_enabled with
    | false =>
      rw [csvBlockStep_disabled st1 vals inp hlog]
      exact ⟨by simp, by simp [hfile1]⟩
    | true =>
      cases vals with
      | none =>
        rw [csvBlockStep_open_none st1 inp h hlog hfile1]
        refine ⟨?_, by simp [hfile1]⟩
        intro e he
        simp only [List.mem_singleton] at he
        subst he
        trivial
      | some v =>
        rw [csvBlockStep_open_some st1 v inp h hlog hfile1]
        refine ⟨?_, by simp⟩
        intro e he
        simp only [List.mem_cons, List.not_mem_nil, or_false] at he
        rcases he with he | he <;> subst he <;> rfl
  cases hev : inp.ev with
  | noData =>
    simp only [iterStep, hev]
    exact ⟨by simp, by simp [hfile]⟩
  | raiseErr m =>
    simp only [iterStep, hev]
    refine ⟨?_, by simp [hfile]⟩
    intro e he
    simp only [List.mem_singleton] at he
    subst he
    trivial
  | data s =>
    by_cases hne : pyStrip s = ""
    · simp only [iterStep, hev]
      rw [if_pos hne]
      exact ⟨by simp, by simp [hfile]⟩
    · rcases hraw : (parse_all_measurements (pyStrip s)).raw with _ | r
      · rw [iterStep_data_struct st inp s hev hne hraw]
        set v := mkCsvVals (parse_all_measurements (pyStrip s)) with hv
        set st1 : TState := { st with lastVals := some v } with hst1
        have hb := hblock st1 (some v) hfile rfl
        refine ⟨?_, hb.2⟩
        intro e he
        rcases List.mem_append.mp he with he | he
        · rcases List.mem_append.mp he with he | he
          · rcases List.mem_append.mp he with he | he
            · simp only [List.mem_singleton] at he
              subst he
              trivial
            · exact effWritesTo_updFx _ _ e he
          · simp only [List.mem_singleton] at he
            subst he
            trivial
        · exact hb.1 e he
      · rw [iterStep_data_raw st inp s r hev hne hraw]
        have hb := hblock st st.lastVals hfile rfl
        refine ⟨?_, hb.2⟩
        intro e he
        rcases List.mem_append.mp he with he | he
        · simp only [List.mem_cons, List.not_mem_nil, or_false] at he
          rcases he with he | he <;> subst he <;> trivial
        · exact hb.1 e he

/-- C10: calling `set_logging(True, newPath)` while logging is enabled
and a CSV handle is open leaves the handle untouched — only the stored
path (and the already-true flag) are written — and any subsequent
iteration keeps writing to the previously opened file: every CSV
write/flush names the old handle's path, no new file is opened, and the
state keeps holding a handle with the old path. -/
theorem set_logging_keeps_open_handle (st : TState) (h : CsvHandle) (npath : String)
    (hfile : st.csv_file = some h) :
    (set_logging st true (some npath)).csv_file = some h ∧
    (set_logging st true (some npath)).csv_path = some npath ∧
    (set_logging st true (some npath)).logging_enabled = true ∧
    (set_logging st true (some npath)).lastVals = st.lastVals ∧
    (∀ inp, (∀ e ∈ (iterStep (set_logging st true (some npath)) inp).2, effWritesTo e h.path) ∧
      ((iterStep (set_logging st true (some npath)) inp).1.csv_file).map CsvHandle.path =
        some h.path) := by
  refine ⟨by simp [set_logging, hfile], by simp [set_logging], by simp [set_logging],
    by simp [set_logging], ?_⟩
  intro inp
  exact iterStep_keeps_handle _ inp h (by simpa [set_logging] using hfile)

/-- A state with logging already enabled and an open handle. -/
def c10State : TState :=
  { logging_enabled := true
    csv_file := some (CsvHandle.mk "old.csv" ["row1"] false)
    csv_path := some "old.csv"
    lastVals := none }

/-- C10 witness at a concrete state, new path, and one iteration input. -/
theorem set_logging_keeps_open_handle_witness :
    (set_logging c10State true (some "new.csv")).csv_file =
      some (CsvHandle.mk "old.csv" ["row1"] false) ∧
    (set_logging c10State true (some "new.csv")).csv_path = some "new.csv" ∧
    (set_logging c10State true (some "new.csv")).logging_enabled = true ∧
    (set_logging c10State true (some "new.csv")).lastVals = c10State.lastVals ∧
    (∀ inp, (∀ e ∈ (iterStep (set_logging c10State true (some "new.csv")) inp).2,
        effWritesTo e (CsvHandle.mk "old.csv" ["row1"] false).path) ∧
      ((iterStep (set_logging c10State true (some "new.csv")) inp).1.csv_file).map
          CsvHandle.path = some (CsvHandle.mk "old.csv" ["row1"] false).path) :=
  set_logging_keeps_open_handle c10State (CsvHandle.mk "old.csv" ["row1"] false) "new.csv" rfl

lemma closeCsv_none (st : TState) (hf : st.csv_file = none) : closeCsv st = st := by
  unfold closeCsv
  rw [hf]

lemma closeCsv_some (st : TState) (h0 : CsvHandle) (hf : st.csv_file = some h0) :
    closeCsv st = { st with csv_file := some { h0 with closed := true } } := by
  unfold closeCsv
  rw [hf]

lemma noOpenCsv_closeCsv (st : TState) : noOpenCsv (closeCsv st) := by
  cases hf : st.csv_file with
  | none =>
    rw [closeCsv_none st hf]
    intro h heq
    rw [hf] at heq
    exact absurd heq (by simp)
  | some h0 =>
    rw [closeCsv_some st h0 hf]
    intro h heq
    simp only [Option.some.injEq] at heq
    rw [← heq]

/-- C5: the reader loop exits only at an iteration whose stop flag is
set — no serial event, decode problem, or in-iteration exception ends it
(a trace whose stop flag is never set leaves the loop running) — and when
it does exit, the CSV file (if any) is closed and the emitted effects are
exactly those of the iterations before the stop was observed: nothing,
in particular no CSV write, happens afterwards. -/
theorem loop_exit_only_on_stop (st : TState) (inputs : List (Bool × IterInput)) :
    ((∀ q ∈ inputs, q.1 = false) → (runLoop st inputs).1 = false) ∧
    (∀ st2 effs, runLoop st inputs = (true, st2, effs) →
      noOpenCsv st2 ∧
      ∃ pre inp rest, inputs = pre ++ (true, inp) :: rest ∧ (∀ q ∈ pre, q.1 = false) ∧
        st2 = closeCsv (loopFold st pre) ∧ effs = loopFx st pre) := by
  induction inputs generalizing st with
  | nil =>
    constructor
    · intro _
      rfl
    · intro st2 effs hh
      exact absurd hh (by simp [runLoop])
  | cons q rest ih =>
    constructor
    · intro hall
      have hq : q.1 = false := hall q (List.mem_cons_self q rest)
      simp only [runLoop, hq, Bool.false_eq_true, if_false]
      exact (ih (iterStep st q.2).1).1 fun p hp => hall p (List.mem_cons_of_mem q hp)
    · intro st2 effs hh
      cases hq : q.1 with
      | true =>
        simp only [runLoop, hq, if_true, Prod.mk.injEq] at hh
        obtain ⟨q1, q2⟩ := q
        simp only at hq
        subst hq
        refine ⟨hh.2.1 ▸ noOpenCsv_closeCsv st, [], q2, rest, by simp, by simp, ?_, ?_⟩
        · rw [← hh.2.1]
          rfl
        · rw [← hh.2.2]
          rfl
      | false =>
        simp only [runLoop, hq, Bool.false_eq_true, if_false] at hh
        rcases hr : runLoop (iterStep st q.2).1 rest with ⟨b, st3, effs3⟩
        rw [hr] at hh
        simp only [Prod.mk.injEq] at hh
        obtain ⟨hb, hst3, heffs⟩ := hh
        subst hb
        have hrec := (ih (iterStep st q.2).1).2 st3 effs3 hr
        obtain ⟨hopen, pre, inp, rest2, hsplit, hprefalse, hst, hfx⟩ := hrec
        obtain ⟨q1, q2⟩ := q
        simp only at hq
        subst hq
        refine ⟨hst3 ▸ hopen, (false, q2) :: pre, inp, rest2, by simp [hsplit], ?_, ?_, ?_⟩
        · intro p hp
          rcases List.mem_cons.mp hp with hp | hp
          · subst hp
            rfl
          · exact hprefalse p hp
        · rw [← hst3, hst]
          rfl
        · rw [← heffs, hfx]
          rfl

/-- A running state with an open CSV file for the C5 witness. -/
def c5State : TState :=
  { logging_enabled := true
    csv_file := some (CsvHandle.mk "log.csv" ["row"] false)
    csv_path := some "log.csv"
    lastVals := none }

/-- An idle iteration input for the C5 witness. -/
def c5Input : IterInput :=
  { ev := SerialEvent.noData, openOk := true, openErrMsg := "", now := "t" }

/-- C5 witness: an all-false trace leaves the loop running, and a trace
whose first stop flag is set exits with the file closed and no effects. -/
theorem loop_exit_only_on_stop_witness :
    (runLoop c5State [(false, c5Input)]).1 = false ∧
    (noOpenCsv (closeCsv c5State) ∧
      ∃ pre inp rest,
        ([((true : Bool), c5Input)] : List (Bool × IterInput)) = pre ++ (true, inp) :: rest ∧
        (∀ q ∈ pre, q.1 = false) ∧
        closeCsv c5State = closeCsv (loopFold c5State pre) ∧
        ([] : List Effect) = loopFx c5State pre) :=
  ⟨(loop_exit_only_on_stop c5State [(false, c5Input)]).1 (by decide),
   (loop_exit_only_on_stop c5State [(true, c5Input)]).2 (closeCsv c5State) [] rfl⟩
